import Mathlib

/-!
Verification of the ENS resolution and preference-derivation logic of the
pancake-frontend repository.

The repository's derivation units are React hooks combining pure memoized
derivations with asynchronous lookups issued through the `wagmi` query layer.
We embed each hook as a pure Lean function: the lookup layer is modelled by an
environment record holding, for every query the hook can issue, the data and
loading flag the query layer would report if the query were enabled; a query
that the hook leaves disabled reports no data (`none`), no loading and no
error, mirroring a disabled `wagmi`/react-query query.  JavaScript
`string | null | undefined` values become `Option String`, with JS truthiness
(`Boolean(x)`, which is false for both null/undefined and the empty string)
made explicit.  The external `normalize` function from `viem/ens`, which
throws on invalid names, is a parameter of type `String → Option String`
(`none` = throws); the `catch` blocks in the source correspond to matching on
`none`.  Numbers parsed by `parseFloat` are modelled over `ℚ` via an exact
decimal/scientific parser returning an exact fraction (`none` = NaN).
-/

/-- JS truthiness of a `string | null | undefined` value:
`Boolean(x)` is `true` exactly when the value is present and non-empty. -/
def strTruthy : Option String → Bool
  | some s => s != ""
  | none => false

/-- `s.includes('.')` on a JS string, over the character list. -/
def containsDot (s : String) : Bool :=
  s.data.any (fun c => c == '.')

/-- JS `String.prototype.trim` (an external built-in), modelled over the
character list: drop whitespace from both ends. -/
def jsTrim (s : String) : String :=
  ⟨((s.data.dropWhile Char.isWhitespace).reverse.dropWhile Char.isWhitespace).reverse⟩

/-- One hexadecimal digit, either case: the character class `[a-fA-F0-9]`. -/
def isHexDigitChar (c : Char) : Bool :=
  (('0' ≤ c) && (c ≤ '9')) || (('a' ≤ c) && (c ≤ 'f')) || (('A' ≤ c) && (c ≤ 'F'))

/-- The canonical address pattern `/^0x[a-fA-F0-9]{40}$/` used by
`useResolveAddressOrENS`.  `viem`'s `isAddress` (an external collaborator) is
modelled by the same 40-hex-digit-with-0x-prefix shape check, as the spec
describes it. -/
def addressRegexTest (s : String) : Bool :=
  match s.data with
  | '0' :: 'x' :: rest => (rest.length == 40) && rest.all isHexDigitChar
  | _ => false

/-- `viem`'s `isAddress`, modelled as the canonical address pattern. -/
def isAddress (s : String) : Bool := addressRegexTest s

-- Chain identifiers used in the source (`@pancakeswap/chains`).
def ETHEREUM : Nat := 1
def GOERLI : Nat := 5
def BSC : Nat := 56
def BSC_TESTNET : Nat := 97

/-! ## Token-address resolver (`useENSTokenAddress`, src/unnamed/part_002)

The version with ERC-20 `decimals()` verification; the spec's §4.3 documents
this variant (decimals check, one retry, sixty-second cache). -/

/-- Results and loading flags the query layer would report for each of the
three queries the token-address resolver can issue (primary address, `token`
text record, `decimals()` contract read), were the query enabled. -/
structure TokenLookups where
  primaryAddress : Option String
  primaryLoading : Bool
  tokenRecord : Option String
  tokenRecordLoading : Bool
  decimalsValue : Option Nat
  verifyLoading : Bool
  verifyError : Bool
  deriving DecidableEq

/-- The record returned by `useENSTokenAddress`. -/
structure TokenResult where
  address : Option String
  isENSName : Bool
  ensName : Option String
  isLoading : Bool
  isValid : Bool
  isERC20Token : Bool
  decimals : Option Nat
  hasTokenRecord : Bool
  deriving DecidableEq

/-- The `{ isENSName, normalizedName }` memo of `useENSTokenAddress`:
empty input → not a name; a valid address → not a name; contains a dot →
normalize, catching failure; otherwise not a name. -/
def classifyTokenInput (normalize : String → Option String)
    (input : Option String) : Bool × Option String :=
  match input with
  | none => (false, none)
  | some s =>
    if jsTrim s == "" then (false, none)
    else
      let trimmed := jsTrim s
      if isAddress trimmed then (false, none)
      else if containsDot trimmed then
        match normalize trimmed with
        | some n => (true, some n)
        | none => (false, none)
      else (false, none)

/-- `isENSName` component of the classification memo. -/
def tokenIsENSName (normalize : String → Option String) (input : Option String) : Bool :=
  (classifyTokenInput normalize input).1

/-- `normalizedName` component of the classification memo. -/
def tokenNormalizedName (normalize : String → Option String) (input : Option String) :
    Option String :=
  (classifyTokenInput normalize input).2

/-- The `enabled` flag of both ENS queries (primary address and `token` text
record): `isENSName && enabled && normalizedName !== null`. -/
def tokenEnsQueryEnabled (normalize : String → Option String)
    (input : Option String) (enabled : Bool) : Bool :=
  tokenIsENSName normalize input && enabled &&
    (tokenNormalizedName normalize input).isSome

/-- Data reported by the primary-address query (`none` when disabled). -/
def tokenPrimaryAddressData (normalize : String → Option String)
    (input : Option String) (enabled : Bool) (env : TokenLookups) : Option String :=
  if tokenEnsQueryEnabled normalize input enabled then env.primaryAddress else none

/-- Data reported by the `token` text-record query (`none` when disabled). -/
def tokenTextRecordData (normalize : String → Option String)
    (input : Option String) (enabled : Bool) (env : TokenLookups) : Option String :=
  if tokenEnsQueryEnabled normalize input enabled then env.tokenRecord else none

/-- The `resolvedAddress` memo: the input itself when it is already an
address, else the `token` text record when it is a valid address, else the
primary address when valid, else `null`. -/
def resolvedAddressDef (isENSName : Bool) (input : Option String)
    (tokenTextRecord primaryAddress : Option String) : Option String :=
  if !isENSName && strTruthy input && isAddress (jsTrim (input.getD "")) then
    some (jsTrim (input.getD ""))
  else if strTruthy tokenTextRecord && isAddress (tokenTextRecord.getD "") then
    tokenTextRecord
  else if strTruthy primaryAddress && isAddress (primaryAddress.getD "") then
    primaryAddress
  else none

/-- `resolvedAddress` of the hook, with lookups drawn from the environment. -/
def tokenResolvedAddress (normalize : String → Option String)
    (input : Option String) (enabled : Bool) (env : TokenLookups) : Option String :=
  resolvedAddressDef (tokenIsENSName normalize input) input
    (tokenTextRecordData normalize input enabled env)
    (tokenPrimaryAddressData normalize input enabled env)

/-- The `enabled` flag of the `decimals()` verification read:
`Boolean(resolvedAddress)`. -/
def tokenVerifyEnabled (normalize : String → Option String)
    (input : Option String) (enabled : Bool) (env : TokenLookups) : Bool :=
  (tokenResolvedAddress normalize input enabled env).isSome

/-- `decimals` reported by the verification read (`none` when disabled). -/
def tokenDecimalsData (normalize : String → Option String)
    (input : Option String) (enabled : Bool) (env : TokenLookups) : Option Nat :=
  if tokenVerifyEnabled normalize input enabled env then env.decimalsValue else none

/-- `isError` of the verification read (`false` when disabled). -/
def tokenVerificationError (normalize : String → Option String)
    (input : Option String) (enabled : Bool) (env : TokenLookups) : Bool :=
  tokenVerifyEnabled normalize input enabled env && env.verifyError

/-- The `isERC20Token` memo: resolved address present, decimals fetched,
and no verification error. -/
def tokenIsERC20 (normalize : String → Option String)
    (input : Option String) (enabled : Bool) (env : TokenLookups) : Bool :=
  (tokenResolvedAddress normalize input enabled env).isSome &&
    (tokenDecimalsData normalize input enabled env).isSome &&
    !tokenVerificationError normalize input enabled env

/-- `!input || input.trim() === ''`. -/
def inputBlank : Option String → Bool
  | none => true
  | some s => jsTrim s == ""

/-- The `isValid` memo of `useENSTokenAddress`. -/
def tokenIsValid (normalize : String → Option String)
    (input : Option String) (enabled : Bool) (env : TokenLookups) : Bool :=
  if inputBlank input then false
  else if tokenIsENSName normalize input then
    (tokenResolvedAddress normalize input enabled env).isSome &&
      tokenIsERC20 normalize input enabled env
  else
    isAddress (jsTrim (input.getD "")) && tokenIsERC20 normalize input enabled env

/-- The `isLoading` flag of `useENSTokenAddress`. -/
def tokenIsLoading (normalize : String → Option String)
    (input : Option String) (enabled : Bool) (env : TokenLookups) : Bool :=
  tokenIsENSName normalize input &&
    ((tokenEnsQueryEnabled normalize input enabled && env.primaryLoading) ||
     (tokenEnsQueryEnabled normalize input enabled && env.tokenRecordLoading) ||
     (tokenVerifyEnabled normalize input enabled env && env.verifyLoading))

/-- `hasTokenRecord`: `Boolean(tokenTextRecord && isAddress(tokenTextRecord))`. -/
def tokenHasTokenRecord (normalize : String → Option String)
    (input : Option String) (enabled : Bool) (env : TokenLookups) : Bool :=
  strTruthy (tokenTextRecordData normalize input enabled env) &&
    isAddress ((tokenTextRecordData normalize input enabled env).getD "")

/-- The token-address resolver hook (`useENSTokenAddress` with ERC-20
verification), assembled from its memoized derivations. -/
def useENSTokenAddress (normalize : String → Option String)
    (input : Option String) (enabled : Bool) (env : TokenLookups) : TokenResult :=
  { address := tokenResolvedAddress normalize input enabled env
    isENSName := tokenIsENSName normalize input
    ensName := if tokenIsENSName normalize input
      then tokenNormalizedName normalize input else none
    isLoading := tokenIsLoading normalize input enabled env
    isValid := tokenIsValid normalize input enabled env
    isERC20Token := tokenIsERC20 normalize input enabled env
    decimals := tokenDecimalsData normalize input enabled env
    hasTokenRecord := tokenHasTokenRecord normalize input enabled env }

/-! ## Name resolver (`useENSProfile`) and input classifier
(`useResolveAddressOrENS`), apps/web/src/hooks/useENSPreferences.ts -/

/-- Results and loading flags the query layer would report for the queries
`useENSProfile` can issue, were they enabled. -/
structure ProfileLookups where
  address : Option String
  addressLoading : Bool
  avatar : Option String
  avatarLoading : Bool
  twitter : Option String
  github : Option String
  discord : Option String
  telegram : Option String
  email : Option String
  url : Option String
  deriving DecidableEq

/-- The fixed social text-record set returned by `useENSProfile`. -/
structure SocialRecords where
  twitter : Option String
  github : Option String
  discord : Option String
  telegram : Option String
  email : Option String
  url : Option String
  deriving DecidableEq

/-- The record returned by `useENSProfile`. -/
structure ProfileResult where
  address : Option String
  avatar : Option String
  isLoading : Bool
  socialRecords : SocialRecords
  isValid : Bool
  deriving DecidableEq

/-- ENS queries are only enabled on chains other than BSC and BSC testnet. -/
def isENSSupported (chainId : Nat) : Bool :=
  (chainId != BSC) && (chainId != BSC_TESTNET)

/-- The `normalizedName` memo of `useENSProfile`: a name containing a dot is
normalized, with normalization failure caught and mapped to `undefined`. -/
def profileNormalizedName (normalize : String → Option String)
    (ensName : Option String) : Option String :=
  match ensName with
  | none => none
  | some s =>
    if s == "" then none
    else if containsDot s then normalize s
    else none

/-- `shouldFetch = enabled && isENSSupported && Boolean(normalizedName)`. -/
def profileShouldFetch (normalize : String → Option String) (chainId : Nat)
    (ensName : Option String) (enabled : Bool) : Bool :=
  enabled && isENSSupported chainId &&
    strTruthy (profileNormalizedName normalize ensName)

/-- Data reported by the primary-address query of `useENSProfile`. -/
def profileAddressData (normalize : String → Option String) (chainId : Nat)
    (ensName : Option String) (enabled : Bool) (env : ProfileLookups) : Option String :=
  if profileShouldFetch normalize chainId ensName enabled then env.address else none

/-- The `enabled` flag of every social text-record query:
`shouldFetch && Boolean(address)`. -/
def profileSocialEnabled (normalize : String → Option String) (chainId : Nat)
    (ensName : Option String) (enabled : Bool) (env : ProfileLookups) : Bool :=
  profileShouldFetch normalize chainId ensName enabled &&
    strTruthy (profileAddressData normalize chainId ensName enabled env)

/-- The name resolver hook `useENSProfile`, assembled from its queries. -/
def useENSProfile (normalize : String → Option String) (chainId : Nat)
    (ensName : Option String) (enabled : Bool) (env : ProfileLookups) : ProfileResult :=
  let shouldFetch := profileShouldFetch normalize chainId ensName enabled
  let address := profileAddressData normalize chainId ensName enabled env
  let socialEnabled := profileSocialEnabled normalize chainId ensName enabled env
  { address := address
    avatar := if shouldFetch then env.avatar else none
    isLoading := (shouldFetch && env.addressLoading) || (shouldFetch && env.avatarLoading)
    socialRecords :=
      { twitter := if socialEnabled then env.twitter else none
        github := if socialEnabled then env.github else none
        discord := if socialEnabled then env.discord else none
        telegram := if socialEnabled then env.telegram else none
        email := if socialEnabled then env.email else none
        url := if socialEnabled then env.url else none }
    isValid := strTruthy address }

/-- The record returned by `useResolveAddressOrENS`. -/
structure ResolveResult where
  address : Option String
  isENSName : Bool
  ensName : Option String
  avatar : Option String
  socialRecords : Option SocialRecords
  isLoading : Bool
  isValid : Bool
  deriving DecidableEq

/-- The `isAddress` memo of `useResolveAddressOrENS`:
`/^0x[a-fA-F0-9]{40}$/.test(input)` on a truthy input. -/
def resolveIsAddress (input : Option String) : Bool :=
  match input with
  | none => false
  | some s => addressRegexTest s

/-- The `isENSName` memo of `useResolveAddressOrENS`: contains a dot and is
not address-shaped. -/
def resolveIsENSName (input : Option String) : Bool :=
  match input with
  | none => false
  | some s => containsDot s && !addressRegexTest s

/-- The classifier-plus-resolver hook `useResolveAddressOrENS`; the embedded
`useENSProfile` call receives the input only when it is classified as an ENS
name. -/
def useResolveAddressOrENS (normalize : String → Option String) (chainId : Nat)
    (input : Option String) (enabled : Bool) (env : ProfileLookups) : ResolveResult :=
  let isAddr := resolveIsAddress input
  let isENS := resolveIsENSName input
  let ensProfile := useENSProfile normalize chainId
    (if isENS then input else none) (enabled && isENS) env
  if isAddr then
    { address := input, isENSName := false, ensName := none, avatar := none
      socialRecords := none, isLoading := false, isValid := true }
  else if isENS then
    { address := ensProfile.address, isENSName := true, ensName := input
      avatar := ensProfile.avatar, socialRecords := some ensProfile.socialRecords
      isLoading := ensProfile.isLoading, isValid := ensProfile.isValid }
  else
    { address := none, isENSName := false, ensName := none, avatar := none
      socialRecords := none, isLoading := false, isValid := false }

/-! ## Preference decoder (`useENSPreferences`) -/

/-- The decoded `ENSPreferences` record.  `theme` and `gasPriority` hold
only validated literal values by construction of the decoder. -/
structure ENSPreferences where
  slippage : Option String
  theme : Option String
  expertMode : Option Bool
  gasPriority : Option String
  deriving DecidableEq

/-- Numeric value of a digit run, most significant first. -/
def digitsVal (ds : List Char) : Nat :=
  ds.foldl (fun a c => a * 10 + (c.toNat - 48)) 0

/-- JS `String.prototype.toLowerCase` (an external built-in), modelled over
the character list. -/
def jsToLowerCase (s : String) : String :=
  ⟨s.data.map Char.toLower⟩

/-- JS `parseFloat`, modelled exactly: skip leading whitespace, parse an
optional sign, the longest prefix of the form
`digits [. digits] [e|E [sign] digits]` (an exponent marker without digits is
not part of the literal), and ignore any trailing characters; `none` models
NaN (no numeric prefix at all).  The parsed value is returned as an exact
unreduced fraction (numerator, positive power-of-ten denominator); its
rational value is `ratValue`. -/
def parseFloatParts (s : String) : Option (Int × Nat) :=
  let cs := s.data.dropWhile (fun c => c.isWhitespace)
  let signAndRest : Bool × List Char :=
    match cs with
    | '-' :: rest => (true, rest)
    | '+' :: rest => (false, rest)
    | _ => (false, cs)
  let neg := signAndRest.1
  let cs1 := signAndRest.2
  let intDs := cs1.takeWhile Char.isDigit
  let cs2 := cs1.dropWhile Char.isDigit
  let fracDs :=
    match cs2 with
    | '.' :: rest => rest.takeWhile Char.isDigit
    | _ => []
  let cs3 :=
    match cs2 with
    | '.' :: rest => rest.dropWhile Char.isDigit
    | _ => cs2
  if intDs.isEmpty && fracDs.isEmpty then none
  else
    let mant : Nat := digitsVal intDs * 10 ^ fracDs.length + digitsVal fracDs
    let expo : Int :=
      match cs3 with
      | c :: rest =>
        if c == 'e' || c == 'E' then
          let esignAndRest : Bool × List Char :=
            match rest with
            | '-' :: r => (true, r)
            | '+' :: r => (false, r)
            | _ => (false, rest)
          let eds := esignAndRest.2.takeWhile Char.isDigit
          if eds.isEmpty then 0
          else if esignAndRest.1 then -(digitsVal eds : Int) else (digitsVal eds : Int)
        else 0
      | [] => 0
    let num : Int := (if neg then -(mant : Int) else (mant : Int)) * 10 ^ expo.toNat
    let den : Nat := 10 ^ fracDs.length * 10 ^ (-expo).toNat
    some (num, den)

/-- The rational value of a parsed number. -/
def ratValue (p : Int × Nat) : ℚ := (p.1 : ℚ) / (p.2 : ℚ)

/-- The guard `slippage >= 0 && slippage <= 50` of the source, as the
equivalent exact comparison on the unreduced fraction (the denominator is a
positive power of ten, so cross-multiplication preserves the order). -/
def slippageInRange (p : Int × Nat) : Bool :=
  decide (0 ≤ p.1) && decide (p.1 ≤ 50 * (p.2 : Int))

/-- The `preferences` memo of `useENSPreferences`: each text record is
validated independently; a failing value leaves its field unassigned. -/
def decodePreferences (slippageText themeText expertModeText gasText :
    Option String) : ENSPreferences :=
  let slippage :=
    if strTruthy slippageText then
      match parseFloatParts (slippageText.getD "") with
      | some p => if slippageInRange p then slippageText else none
      | none => none
    else none
  let theme :=
    if strTruthy themeText && (themeText == some "dark" || themeText == some "light")
    then themeText else none
  let expertMode :=
    if strTruthy expertModeText
    then some (jsToLowerCase (expertModeText.getD "") == "true") else none
  let gasPriority :=
    if strTruthy gasText &&
       (let l := jsToLowerCase (gasText.getD "")
        l == "low" || l == "medium" || l == "high")
    then some (jsToLowerCase (gasText.getD "")) else none
  { slippage := slippage, theme := theme
    expertMode := expertMode, gasPriority := gasPriority }

/-- Number of keys assigned in the preferences object
(`Object.keys(preferences).length`). -/
def prefKeyCount (p : ENSPreferences) : Nat :=
  (if p.slippage.isSome then 1 else 0) + (if p.theme.isSome then 1 else 0) +
    (if p.expertMode.isSome then 1 else 0) + (if p.gasPriority.isSome then 1 else 0)

/-- `hasAnyPreferences = Object.keys(preferences).length > 0`. -/
def hasAnyPreferences (p : ENSPreferences) : Bool :=
  decide (0 < prefKeyCount p)

/-! ## Helper lemmas -/

/-- A hex digit is not the dot character. -/
theorem isHexDigitChar_ne_dot (c : Char) (h : isHexDigitChar c = true) :
    (c == '.') = false := by
  cases hbe : c == '.' with
  | false => rfl
  | true =>
    have hc : c = '.' := eq_of_beq hbe
    subst hc
    exact absurd h (by decide)

/-- A string matching the address pattern contains no dot. -/
theorem addressRegexTest_no_dot (s : String) (h : addressRegexTest s = true) :
    containsDot s = false := by
  unfold addressRegexTest at h
  unfold containsDot
  split at h
  next rest heq =>
    rw [Bool.and_eq_true] at h
    rw [heq]
    rw [List.any_eq_false]
    intro c hc
    rcases List.mem_cons.mp hc with hc0 | hc1
    · subst hc0; decide
    · rcases List.mem_cons.mp hc1 with hcx | hcr
      · subst hcx; decide
      · have := (List.all_eq_true.mp h.2) c hcr
        simp [isHexDigitChar_ne_dot c this]
  next => exact absurd h (by simp)

/-- A string matching the address pattern is non-empty. -/
theorem addressRegexTest_ne_empty (s : String) (h : addressRegexTest s = true) :
    (s == "") = false := by
  unfold addressRegexTest at h
  split at h
  next rest heq =>
    cases hbe : s == "" with
    | false => rfl
    | true =>
      have hs : s = "" := eq_of_beq hbe
      subst hs
      exact absurd heq (by simp)
  next => exact absurd h (by simp)

/-- A string containing a dot is non-empty. -/
theorem containsDot_ne_empty (t : String) (h : containsDot t = true) :
    (t == "") = false := by
  cases hbe : t == "" with
  | false => rfl
  | true =>
    have ht : t = "" := eq_of_beq hbe
    subst ht
    exact absurd h (by decide)

/-- The classification memo takes only two shapes: not-a-name with no
normalized name, or a name together with its normalization. -/
theorem classifyTokenInput_cases (normalize : String → Option String)
    (input : Option String) :
    classifyTokenInput normalize input = (false, none) ∨
    ∃ n, classifyTokenInput normalize input = (true, some n) := by
  unfold classifyTokenInput
  cases input with
  | none => exact Or.inl rfl
  | some s =>
    simp only
    split
    · exact Or.inl rfl
    · split
      · exact Or.inl rfl
      · split
        · split
          next n heq => exact Or.inr ⟨n, rfl⟩
          next => exact Or.inl rfl
        · exact Or.inl rfl

/-- When the classifier reports an ENS name, it also reports a normalized
name. -/
theorem tokenIsENSName_normalized (normalize : String → Option String)
    (input : Option String) (h : tokenIsENSName normalize input = true) :
    (tokenNormalizedName normalize input).isSome = true := by
  unfold tokenIsENSName at h
  unfold tokenNormalizedName
  rcases classifyTokenInput_cases normalize input with hc | ⟨n, hc⟩
  · rw [hc] at h
    exact absurd h (by simp)
  · rw [hc]
    rfl

/-- Classification of a blank input. -/
theorem classifyTokenInput_blank (normalize : String → Option String)
    (input : Option String) (h : inputBlank input = true) :
    classifyTokenInput normalize input = (false, none) := by
  unfold classifyTokenInput
  cases input with
  | none => rfl
  | some s =>
    have h' : (jsTrim s == "") = true := h
    simp [h']

/-- Classification of an input that is already a valid address. -/
theorem classifyTokenInput_address (normalize : String → Option String)
    (s : String) (h : isAddress (jsTrim s) = true) :
    classifyTokenInput normalize (some s) = (false, none) := by
  have hne : (jsTrim s == "") = false := addressRegexTest_ne_empty _ h
  unfold classifyTokenInput
  simp [hne, h]

/-- Classification of a dotted non-address input follows the normalization
outcome. -/
theorem classifyTokenInput_ens (normalize : String → Option String)
    (s : String) (hdot : containsDot (jsTrim s) = true)
    (haddr : isAddress (jsTrim s) = false) :
    classifyTokenInput normalize (some s) =
      match normalize (jsTrim s) with
      | some n => (true, some n)
      | none => (false, none) := by
  have hne : (jsTrim s == "") = false := containsDot_ne_empty _ hdot
  unfold classifyTokenInput
  simp [hne, haddr, hdot]

/-! ## Claim theorems -/

/-- C3: every trimmed string matching the 40-hex-digit-with-0x-prefix address
pattern — whatever the letter casing of its hex digits — is classified as an
address and not as an ENS name, in both the `useResolveAddressOrENS`
classifier and the `useENSTokenAddress` classifier: the address check takes
precedence over the dot-based ENS check (and a pattern match in fact excludes
dots altogether). -/
theorem c3_address_pattern_precedence (s : String)
    (h : addressRegexTest s = true) (hs : jsTrim s = s) :
    resolveIsAddress (some s) = true ∧ resolveIsENSName (some s) = false ∧
    containsDot s = false ∧
    ∀ normalize, classifyTokenInput normalize (some s) = (false, none) := by
  refine ⟨h, ?_, addressRegexTest_no_dot s h, ?_⟩
  · unfold resolveIsENSName
    simp [h]
  · intro normalize
    exact classifyTokenInput_address normalize s (by rw [hs]; exact h)

/-- Witness for C3 at a mixed-case address literal. -/
theorem c3_address_pattern_precedence_witness :
    resolveIsAddress (some "0xAbCdEf0123456789aBcDeF0123456789AbCdEf01") = true ∧
    resolveIsENSName (some "0xAbCdEf0123456789aBcDeF0123456789AbCdEf01") = false ∧
    containsDot "0xAbCdEf0123456789aBcDeF0123456789AbCdEf01" = false ∧
    ∀ normalize, classifyTokenInput normalize
      (some "0xAbCdEf0123456789aBcDeF0123456789AbCdEf01") = (false, none) :=
  c3_address_pattern_precedence _ (by decide) (by decide)

/-- C6: an input containing a dot whose normalization fails is classified as
invalid (not an ENS name) — the normalization failure is absorbed locally
(the embedding of the `catch` is the `none` branch, so no error propagates) —
and no resolution lookups are enabled for it, in the token-address resolver
and in the profile resolver alike. -/
theorem c6_normalization_failure (normalize : String → Option String) (s : String) :
    (containsDot (jsTrim s) = true → normalize (jsTrim s) = none →
       classifyTokenInput normalize (some s) = (false, none) ∧
       ∀ enabled, tokenEnsQueryEnabled normalize (some s) enabled = false)
  ∧ (containsDot s = true → normalize s = none →
       profileNormalizedName normalize (some s) = none ∧
       ∀ chainId enabled, profileShouldFetch normalize chainId (some s) enabled = false) := by
  constructor
  · intro hdot hnorm
    have hcl : classifyTokenInput normalize (some s) = (false, none) := by
      by_cases haddr : isAddress (jsTrim s) = true
      · exact classifyTokenInput_address normalize s haddr
      · rw [classifyTokenInput_ens normalize s hdot (by simpa using haddr), hnorm]
    refine ⟨hcl, ?_⟩
    intro enabled
    simp [tokenEnsQueryEnabled, tokenIsENSName, tokenNormalizedName, hcl]
  · intro hdot hnorm
    have hne : (s == "") = false := containsDot_ne_empty s hdot
    have h1 : profileNormalizedName normalize (some s) = none := by
      unfold profileNormalizedName
      simp [hne, hdot, hnorm]
    refine ⟨h1, ?_⟩
    intro chainId enabled
    simp [profileShouldFetch, h1, strTruthy]

/-- Witness for C6: a dotted name rejected by the normalizer. -/
theorem c6_normalization_failure_witness :
    (classifyTokenInput (fun _ => none) (some "bad..name") = (false, none) ∧
       ∀ enabled, tokenEnsQueryEnabled (fun _ => none) (some "bad..name") enabled = false)
  ∧ (profileNormalizedName (fun _ => none) (some "bad..name") = none ∧
       ∀ chainId enabled,
         profileShouldFetch (fun _ => none) chainId (some "bad..name") enabled = false) :=
  ⟨(c6_normalization_failure (fun _ => none) "bad..name").1 (by decide) rfl,
   (c6_normalization_failure (fun _ => none) "bad..name").2 (by decide) rfl⟩

/-- C8: an input classified as an address resolves immediately: in
`useResolveAddressOrENS` the result is the input itself with
`isENSName = false`, `isValid = true`, no profile data and `isLoading`
false, and the embedded profile lookups stay disabled; in
`useENSTokenAddress` the ENS queries (primary address, `token` record) stay
disabled, the candidate is the trimmed input and `isLoading` is false. -/
theorem c8_address_immediate (normalize : String → Option String) (chainId : Nat)
    (s : String) (enabled : Bool) (envP : ProfileLookups) (envT : TokenLookups)
    (h : addressRegexTest s = true) (hs : jsTrim s = s) :
    useResolveAddressOrENS normalize chainId (some s) enabled envP =
      { address := some s, isENSName := false, ensName := none, avatar := none
        socialRecords := none, isLoading := false, isValid := true }
  ∧ profileShouldFetch normalize chainId
      (if resolveIsENSName (some s) then some s else none)
      (enabled && resolveIsENSName (some s)) = false
  ∧ tokenEnsQueryEnabled normalize (some s) enabled = false
  ∧ (useENSTokenAddress normalize (some s) enabled envT).address = some s
  ∧ (useENSTokenAddress normalize (some s) enabled envT).isLoading = false := by
  have hENS : resolveIsENSName (some s) = false := by
    unfold resolveIsENSName
    simp [h]
  have hcl : classifyTokenInput normalize (some s) = (false, none) :=
    classifyTokenInput_address normalize s (by rw [hs]; exact h)
  have hne : (s == "") = false := addressRegexTest_ne_empty s h
  refine ⟨?_, ?_, ?_, ?_, ?_⟩
  · unfold useResolveAddressOrENS
    have hA : resolveIsAddress (some s) = true := h
    simp [hA]
  · rw [hENS]
    simp [profileShouldFetch, profileNormalizedName, strTruthy]
  · simp [tokenEnsQueryEnabled, tokenIsENSName, tokenNormalizedName, hcl]
  · show tokenResolvedAddress normalize (some s) enabled envT = some s
    unfold tokenResolvedAddress resolvedAddressDef
    simp [tokenIsENSName, hcl, strTruthy, bne, hne, hs]
    intro hcon
    exact absurd hcon (by simp [isAddress, h])
  · show tokenIsLoading normalize (some s) enabled envT = false
    simp [tokenIsLoading, tokenIsENSName, hcl]

/-- Witness for C8 at the spec's example address input. -/
theorem c8_address_immediate_witness :
    useResolveAddressOrENS (fun x => some x) ETHEREUM
        (some "0xABCDEF0123456789ABCDEF0123456789ABCDEF01") true
        ⟨none, false, none, false, none, none, none, none, none, none⟩ =
      { address := some "0xABCDEF0123456789ABCDEF0123456789ABCDEF01"
        isENSName := false, ensName := none, avatar := none
        socialRecords := none, isLoading := false, isValid := true }
  ∧ profileShouldFetch (fun x => some x) ETHEREUM
      (if resolveIsENSName (some "0xABCDEF0123456789ABCDEF0123456789ABCDEF01")
       then some "0xABCDEF0123456789ABCDEF0123456789ABCDEF01" else none)
      (true && resolveIsENSName (some "0xABCDEF0123456789ABCDEF0123456789ABCDEF01")) = false
  ∧ tokenEnsQueryEnabled (fun x => some x)
      (some "0xABCDEF0123456789ABCDEF0123456789ABCDEF01") true = false
  ∧ (useENSTokenAddress (fun x => some x)
      (some "0xABCDEF0123456789ABCDEF0123456789ABCDEF01") true
      ⟨none, false, none, false, none, false, false⟩).address =
      some "0xABCDEF0123456789ABCDEF0123456789ABCDEF01"
  ∧ (useENSTokenAddress (fun x => some x)
      (some "0xABCDEF0123456789ABCDEF0123456789ABCDEF01") true
      ⟨none, false, none, false, none, false, false⟩).isLoading = false :=
  c8_address_immediate _ _ _ _ _ _ (by decide) (by decide)

/-- C9: whenever the token-address resolver reports `hasTokenRecord`, the
address it returns is exactly the `token` text-record value (the record is
never overridden by the primary address); and for an input that is already a
valid address the `token` text-record query is never enabled, so
`hasTokenRecord` is false. -/
theorem c9_hasTokenRecord_invariant (normalize : String → Option String)
    (input : Option String) (enabled : Bool) (env : TokenLookups) :
    ((useENSTokenAddress normalize input enabled env).hasTokenRecord = true →
       (useENSTokenAddress normalize input enabled env).address = env.tokenRecord)
  ∧ (∀ s, isAddress (jsTrim s) = true →
       (useENSTokenAddress normalize (some s) enabled env).hasTokenRecord = false) := by
  constructor
  · intro h
    have h' : tokenHasTokenRecord normalize input enabled env = true := h
    show tokenResolvedAddress normalize input enabled env = env.tokenRecord
    unfold tokenHasTokenRecord at h'
    rw [Bool.and_eq_true] at h'
    obtain ⟨ht, ha⟩ := h'
    have hq : tokenEnsQueryEnabled normalize input enabled = true := by
      by_contra hq
      have hnone : tokenTextRecordData normalize input enabled env = none := by
        unfold tokenTextRecordData
        simp [hq]
      rw [hnone] at ht
      exact absurd ht (by simp [strTruthy])
    have hdata : tokenTextRecordData normalize input enabled env = env.tokenRecord := by
      unfold tokenTextRecordData
      simp [hq]
    have hens : tokenIsENSName normalize input = true := by
      unfold tokenEnsQueryEnabled at hq
      rw [Bool.and_eq_true, Bool.and_eq_true] at hq
      exact hq.1.1
    unfold tokenResolvedAddress resolvedAddressDef
    rw [hdata] at ht ha ⊢
    simp [hens, ht, ha]
  · intro s haddr
    have hcl := classifyTokenInput_address normalize s haddr
    show tokenHasTokenRecord normalize (some s) enabled env = false
    unfold tokenHasTokenRecord tokenTextRecordData
    simp [tokenEnsQueryEnabled, tokenIsENSName, tokenNormalizedName, hcl, strTruthy]

/-- Witness for C9: an ENS name whose `token` record resolves, and a raw
address input. -/
theorem c9_hasTokenRecord_invariant_witness :
    (useENSTokenAddress (fun x => some x) (some "cake.eth") true
      ⟨some "0x2222222222222222222222222222222222222222", false,
       some "0x1111111111111111111111111111111111111111", false,
       some 18, false, false⟩).address =
      some "0x1111111111111111111111111111111111111111"
  ∧ (useENSTokenAddress (fun x => some x)
      (some "0x1111111111111111111111111111111111111111") true
      ⟨some "0x2222222222222222222222222222222222222222", false,
       some "0x1111111111111111111111111111111111111111", false,
       some 18, false, false⟩).hasTokenRecord = false :=
  ⟨(c9_hasTokenRecord_invariant (fun x => some x) (some "cake.eth") true
      ⟨some "0x2222222222222222222222222222222222222222", false,
       some "0x1111111111111111111111111111111111111111", false,
       some 18, false, false⟩).1 (by decide),
   (c9_hasTokenRecord_invariant (fun x => some x)
      (some "0x1111111111111111111111111111111111111111") true
      ⟨some "0x2222222222222222222222222222222222222222", false,
       some "0x1111111111111111111111111111111111111111", false,
       some 18, false, false⟩).2
      "0x1111111111111111111111111111111111111111" (by decide)⟩

/-- C10: the `ensName` returned by the token-address resolver is the output
of the normalization function applied to the trimmed input whenever the input
is classified as an ENS name, and `null` whenever the input is blank,
classified as an address, or fails normalization. -/
theorem c10_ensName_normalized (normalize : String → Option String)
    (enabled : Bool) (env : TokenLookups) :
    (∀ s n, containsDot (jsTrim s) = true → isAddress (jsTrim s) = false →
       normalize (jsTrim s) = some n →
       (useENSTokenAddress normalize (some s) enabled env).ensName = some n)
  ∧ (∀ input, inputBlank input = true →
       (useENSTokenAddress normalize input enabled env).ensName = none)
  ∧ (∀ s, isAddress (jsTrim s) = true →
       (useENSTokenAddress normalize (some s) enabled env).ensName = none)
  ∧ (∀ s, containsDot (jsTrim s) = true → normalize (jsTrim s) = none →
       (useENSTokenAddress normalize (some s) enabled env).ensName = none) := by
  refine ⟨?_, ?_, ?_, ?_⟩
  · intro s n hdot haddr hnorm
    have hcl := classifyTokenInput_ens normalize s hdot haddr
    rw [hnorm] at hcl
    show (if tokenIsENSName normalize (some s) then
      tokenNormalizedName normalize (some s) else none) = some n
    simp [tokenIsENSName, tokenNormalizedName, hcl]
  · intro input hb
    have hcl := classifyTokenInput_blank normalize input hb
    show (if tokenIsENSName normalize input then
      tokenNormalizedName normalize input else none) = none
    simp [tokenIsENSName, hcl]
  · intro s haddr
    have hcl := classifyTokenInput_address normalize s haddr
    show (if tokenIsENSName normalize (some s) then
      tokenNormalizedName normalize (some s) else none) = none
    simp [tokenIsENSName, hcl]
  · intro s hdot hnorm
    have hcl : classifyTokenInput normalize (some s) = (false, none) := by
      by_cases haddr : isAddress (jsTrim s) = true
      · exact classifyTokenInput_address normalize s haddr
      · rw [classifyTokenInput_ens normalize s hdot (by simpa using haddr), hnorm]
    show (if tokenIsENSName normalize (some s) then
      tokenNormalizedName normalize (some s) else none) = none
    simp [tokenIsENSName, hcl]

/-- Witness for C10: a padded upper-case name under a lower-casing
normalizer yields the normalized form, not the raw input. -/
theorem c10_ensName_normalized_witness :
    (useENSTokenAddress (fun t => some (jsToLowerCase t)) (some " CAKE.eth ") true
      ⟨none, false, none, false, none, false, false⟩).ensName = some "cake.eth"
  ∧ (useENSTokenAddress (fun t => some (jsToLowerCase t)) (some "   ") true
      ⟨none, false, none, false, none, false, false⟩).ensName = none
  ∧ (useENSTokenAddress (fun t => some (jsToLowerCase t))
      (some "0x1111111111111111111111111111111111111111") true
      ⟨none, false, none, false, none, false, false⟩).ensName = none :=
  ⟨(c10_ensName_normalized (fun t => some (jsToLowerCase t)) true _).1
      " CAKE.eth " "cake.eth" (by decide) (by decide) (by decide),
   (c10_ensName_normalized (fun t => some (jsToLowerCase t)) true _).2.1
      (some "   ") (by decide),
   (c10_ensName_normalized (fun t => some (jsToLowerCase t)) true _).2.2.1
      "0x1111111111111111111111111111111111111111" (by decide)⟩

/-- C1: the token-address resolver's validity flag holds exactly when the
input is non-blank and either (non-ENS path) the trimmed input is a valid
address and ERC-20 verification succeeded, or (ENS path) an address resolved
and ERC-20 verification succeeded; in particular a `decimals()` verification
error always forces `isValid = false`. -/
theorem c1_isValid_characterization (normalize : String → Option String)
    (input : Option String) (enabled : Bool) (env : TokenLookups) :
    ((useENSTokenAddress normalize input enabled env).isValid = true ↔
      inputBlank input = false ∧
      ((tokenIsENSName normalize input = false ∧
          isAddress (jsTrim (input.getD "")) = true ∧
          (useENSTokenAddress normalize input enabled env).isERC20Token = true) ∨
       (tokenIsENSName normalize input = true ∧
          ((useENSTokenAddress normalize input enabled env).address).isSome = true ∧
          (useENSTokenAddress normalize input enabled env).isERC20Token = true)))
  ∧ (env.verifyError = true →
      (useENSTokenAddress normalize input enabled env).isValid = false) := by
  have hval : (useENSTokenAddress normalize input enabled env).isValid =
      tokenIsValid normalize input enabled env := rfl
  have herc : (useENSTokenAddress normalize input enabled env).isERC20Token =
      tokenIsERC20 normalize input enabled env := rfl
  have haddr : (useENSTokenAddress normalize input enabled env).address =
      tokenResolvedAddress normalize input enabled env := rfl
  constructor
  · rw [hval, herc, haddr]
    unfold tokenIsValid
    cases hb : inputBlank input with
    | true => simp [hb]
    | false =>
      cases he : tokenIsENSName normalize input with
      | true => simp [hb, he, and_assoc]
      | false => simp [hb, he]
  · intro hv
    rw [hval]
    have hE : tokenIsERC20 normalize input enabled env = false := by
      unfold tokenIsERC20
      cases hr : (tokenResolvedAddress normalize input enabled env).isSome with
      | false => simp [hr]
      | true => simp [hr, tokenVerificationError, tokenVerifyEnabled, hv]
    unfold tokenIsValid
    cases hb : inputBlank input with
    | true => simp [hb]
    | false =>
      cases he : tokenIsENSName normalize input with
      | true => simp [hb, he, hE]
      | false => simp [hb, he, hE]

/-- Witness for C1: an ENS name that resolves to an address whose
`decimals()` verification fails is reported invalid. -/
theorem c1_isValid_characterization_witness :
    (useENSTokenAddress (fun x => some x) (some "cake.eth") true
      ⟨some "0x2222222222222222222222222222222222222222", false,
       none, false, none, false, true⟩).isValid = false :=
  (c1_isValid_characterization (fun x => some x) (some "cake.eth") true
    ⟨some "0x2222222222222222222222222222222222222222", false,
     none, false, none, false, true⟩).2 rfl

/-- C2: for an ENS-classified, enabled input, the resolved candidate prefers
a valid `token` text record (even when the primary address is a different
valid address), falls back to a valid primary address when there is no valid
`token` record, and is absent when neither value parses as a valid address. -/
theorem c2_resolution_precedence (normalize : String → Option String)
    (input : Option String) (env : TokenLookups)
    (hens : tokenIsENSName normalize input = true) :
    (∀ A, env.tokenRecord = some A → isAddress A = true →
       (useENSTokenAddress normalize input true env).address = some A)
  ∧ ((strTruthy env.tokenRecord && isAddress (env.tokenRecord.getD "")) = false →
      ∀ B, env.primaryAddress = some B → isAddress B = true →
        (useENSTokenAddress normalize input true env).address = some B)
  ∧ ((strTruthy env.tokenRecord && isAddress (env.tokenRecord.getD "")) = false →
     (strTruthy env.primaryAddress && isAddress (env.primaryAddress.getD "")) = false →
      (useENSTokenAddress normalize input true env).address = none) := by
  have hq : tokenEnsQueryEnabled normalize input true = true := by
    unfold tokenEnsQueryEnabled
    simp [hens, tokenIsENSName_normalized normalize input hens]
  have htr : tokenTextRecordData normalize input true env = env.tokenRecord := by
    unfold tokenTextRecordData
    simp [hq]
  have hpr : tokenPrimaryAddressData normalize input true env = env.primaryAddress := by
    unfold tokenPrimaryAddressData
    simp [hq]
  have hne : ∀ (t : String), isAddress t = true → (t != "") = true := by
    intro t ht
    have h := addressRegexTest_ne_empty t ht
    simp [bne, h]
  refine ⟨?_, ?_, ?_⟩
  · intro A hA hAaddr
    show tokenResolvedAddress normalize input true env = some A
    unfold tokenResolvedAddress resolvedAddressDef
    rw [htr, hpr, hA]
    have h2 : (strTruthy (some A) && isAddress ((some A).getD "")) = true := by
      simp [strTruthy, hne A hAaddr, hAaddr]
    simp [hens, h2]
    intro hcon
    have hT : strTruthy (some A) = true := by simpa [strTruthy] using hne A hAaddr
    exact absurd (hcon hT) (by simp [hAaddr])
  · intro hfail B hB hBaddr
    show tokenResolvedAddress normalize input true env = some B
    unfold tokenResolvedAddress resolvedAddressDef
    rw [htr, hpr, hB]
    have h3 : (strTruthy (some B) && isAddress ((some B).getD "")) = true := by
      simp [strTruthy, hne B hBaddr, hBaddr]
    simp [hens, hfail, h3]
    exact ⟨by simpa [strTruthy] using hne B hBaddr, hBaddr⟩
  · intro hfail1 hfail2
    show tokenResolvedAddress normalize input true env = none
    unfold tokenResolvedAddress resolvedAddressDef
    rw [htr, hpr]
    simp [hens, hfail1, hfail2]

/-- Witness for C2: a `token` record address A wins over a different primary
address B; with no `token` record the primary address B is used; with
neither, the candidate is absent. -/
theorem c2_resolution_precedence_witness :
    (useENSTokenAddress (fun x => some x) (some "cake.eth") true
      ⟨some "0x2222222222222222222222222222222222222222", false,
       some "0x1111111111111111111111111111111111111111", false,
       some 18, false, false⟩).address =
      some "0x1111111111111111111111111111111111111111"
  ∧ (useENSTokenAddress (fun x => some x) (some "cake.eth") true
      ⟨some "0x2222222222222222222222222222222222222222", false,
       none, false, some 18, false, false⟩).address =
      some "0x2222222222222222222222222222222222222222"
  ∧ (useENSTokenAddress (fun x => some x) (some "cake.eth") true
      ⟨none, false, none, false, none, false, false⟩).address = none :=
  ⟨(c2_resolution_precedence (fun x => some x) (some "cake.eth")
      ⟨some "0x2222222222222222222222222222222222222222", false,
       some "0x1111111111111111111111111111111111111111", false,
       some 18, false, false⟩ (by decide)).1
      "0x1111111111111111111111111111111111111111" rfl (by decide),
   (c2_resolution_precedence (fun x => some x) (some "cake.eth")
      ⟨some "0x2222222222222222222222222222222222222222", false,
       none, false, some 18, false, false⟩ (by decide)).2.1
      (by decide) "0x2222222222222222222222222222222222222222" rfl (by decide),
   (c2_resolution_precedence (fun x => some x) (some "cake.eth")
      ⟨none, false, none, false, none, false, false⟩ (by decide)).2.2
      (by decide) (by decide)⟩

/-- C4: the profile resolver's validity flag equals the truthiness of the
resolved primary address, so it is identical across any two environments
that agree on the address-lookup result, regardless of avatar or
social-record results. -/
theorem c4_profile_isValid_independent (normalize : String → Option String)
    (chainId : Nat) (ensName : Option String) (enabled : Bool)
    (env env' : ProfileLookups) (h : env.address = env'.address) :
    ((useENSProfile normalize chainId ensName enabled env).isValid =
      (useENSProfile normalize chainId ensName enabled env').isValid)
  ∧ ((useENSProfile normalize chainId ensName enabled env).isValid = true ↔
      strTruthy (useENSProfile normalize chainId ensName enabled env).address = true) := by
  constructor
  · show strTruthy (profileAddressData normalize chainId ensName enabled env) =
      strTruthy (profileAddressData normalize chainId ensName enabled env')
    unfold profileAddressData
    rw [h]
  · exact Iff.rfl

/-- Witness for C4: `"vitalik.eth"` resolving to a non-empty address with an
empty avatar lookup is valid, with the avatar absent, and changing only the
avatar result does not change validity. -/
theorem c4_profile_isValid_independent_witness :
    ((useENSProfile (fun x => some x) ETHEREUM (some "vitalik.eth") true
        ⟨some "0xd8dA6BF26964aF9D7eEd9e03E53415D37aA96045", false,
         some "https://example.invalid/avatar.png", false,
         none, none, none, none, none, none⟩).isValid =
      (useENSProfile (fun x => some x) ETHEREUM (some "vitalik.eth") true
        ⟨some "0xd8dA6BF26964aF9D7eEd9e03E53415D37aA96045", false,
         none, false, none, none, none, none, none, none⟩).isValid)
  ∧ (useENSProfile (fun x => some x) ETHEREUM (some "vitalik.eth") true
      ⟨some "0xd8dA6BF26964aF9D7eEd9e03E53415D37aA96045", false,
       none, false, none, none, none, none, none, none⟩).isValid = true
  ∧ (useENSProfile (fun x => some x) ETHEREUM (some "vitalik.eth") true
      ⟨some "0xd8dA6BF26964aF9D7eEd9e03E53415D37aA96045", false,
       none, false, none, none, none, none, none, none⟩).avatar = none :=
  ⟨(c4_profile_isValid_independent (fun x => some x) ETHEREUM (some "vitalik.eth") true
      ⟨some "0xd8dA6BF26964aF9D7eEd9e03E53415D37aA96045", false,
       some "https://example.invalid/avatar.png", false,
       none, none, none, none, none, none⟩
      ⟨some "0xd8dA6BF26964aF9D7eEd9e03E53415D37aA96045", false,
       none, false, none, none, none, none, none, none⟩ rfl).1,
   by decide, by decide⟩

/-- The denominator produced by the parser is positive. -/
theorem parseFloatParts_den_pos (v : String) (p : Int × Nat)
    (h : parseFloatParts v = some p) : 0 < p.2 := by
  unfold parseFloatParts at h
  simp only at h
  split at h
  · exact absurd h (by simp)
  · rw [Option.some.injEq] at h
    subst h
    exact Nat.mul_pos (pow_pos (by norm_num) _) (pow_pos (by norm_num) _)

/-- The source's guard `slippage >= 0 && slippage <= 50` holds of the parsed
fraction exactly when its rational value lies in the inclusive range
`[0, 50]`. -/
theorem slippageInRange_iff (p : Int × Nat) (hden : 0 < p.2) :
    slippageInRange p = true ↔ (0 ≤ ratValue p ∧ ratValue p ≤ 50) := by
  unfold slippageInRange ratValue
  rw [Bool.and_eq_true, decide_eq_true_eq, decide_eq_true_eq]
  have hq : (0 : ℚ) < (p.2 : ℚ) := by exact_mod_cast hden
  rw [le_div_iff₀ hq, div_le_iff₀ hq, zero_mul]
  constructor
  · rintro ⟨h1, h2⟩
    refine ⟨by exact_mod_cast h1, ?_⟩
    calc ((p.1 : Int) : ℚ) ≤ ((50 * (p.2 : Int) : Int) : ℚ) := by exact_mod_cast h2
      _ = 50 * (p.2 : ℚ) := by push_cast; ring
  · rintro ⟨h1, h2⟩
    refine ⟨by exact_mod_cast h1, ?_⟩
    have h2' : ((p.1 : Int) : ℚ) ≤ 50 * (p.2 : ℚ) := h2
    have : ((p.1 : Int) : ℚ) ≤ ((50 * (p.2 : Int) : Int) : ℚ) := by
      calc ((p.1 : Int) : ℚ) ≤ 50 * (p.2 : ℚ) := h2'
        _ = ((50 * (p.2 : Int) : Int) : ℚ) := by push_cast; ring
    exact_mod_cast this

/-- The slippage field of the decoder, as an explicit expression. -/
theorem decodePreferences_slippage (s t e g : Option String) :
    (decodePreferences s t e g).slippage =
      (if strTruthy s then
        match parseFloatParts (s.getD "") with
        | some p => if slippageInRange p then s else none
        | none => none
      else none) := rfl


/-- The slippage field is the original text exactly when the text is truthy,
parses, and passes the source's range guard. -/
theorem slippage_some_iff (s t e g : Option String) (v : String) :
    (decodePreferences s t e g).slippage = some v ↔
      s = some v ∧ (v != "") = true ∧
      ∃ p, parseFloatParts v = some p ∧ slippageInRange p = true := by
  rw [decodePreferences_slippage]
  cases s with
  | none => simp [strTruthy]
  | some u =>
    by_cases hT : strTruthy (some u) = true
    · rw [if_pos hT, Option.getD_some]
      rcases hp : parseFloatParts u with _ | p
      · constructor
        · intro h
          exact absurd h (by simp)
        · rintro ⟨huv, -, p, hpv, -⟩
          obtain rfl : u = v := Option.some.inj huv
          rw [hp] at hpv
          exact absurd hpv (by simp)
      · show (if slippageInRange p = true then some u else none) = some v ↔ _
        by_cases hr : slippageInRange p = true
        · rw [if_pos hr]
          constructor
          · intro huv
            obtain rfl : u = v := Option.some.inj huv
            exact ⟨rfl, hT, p, hp, hr⟩
          · rintro ⟨huv, -, -⟩
            exact huv
        · rw [if_neg hr]
          constructor
          · intro h
            exact absurd h (by simp)
          · rintro ⟨huv, -, q, hq, hrq⟩
            obtain rfl : u = v := Option.some.inj huv
            rw [hp] at hq
            obtain rfl : p = q := Option.some.inj hq
            exact absurd hrq hr
    · rw [if_neg hT]
      constructor
      · intro h
        exact absurd h (by simp)
      · rintro ⟨huv, hv, -⟩
        obtain rfl : u = v := Option.some.inj huv
        exact absurd (show strTruthy (some u) = true from hv) hT

/-- C5: the slippage field is present — holding the original record text —
exactly when the record is non-empty and parses as a number whose rational
value lies within the inclusive range [0, 50]; out-of-range or non-numeric
text leaves the field absent without affecting the other preference fields
(`"0.5"` → present, `"75"` → absent, `"abc"` → absent). -/
theorem c5_slippage_decoding (s t e g : Option String) (v : String) :
    ((decodePreferences s t e g).slippage = some v ↔
      s = some v ∧ (v != "") = true ∧
      ∃ p, parseFloatParts v = some p ∧ 0 ≤ ratValue p ∧ ratValue p ≤ 50)
  ∧ (∀ s', (decodePreferences s t e g).theme = (decodePreferences s' t e g).theme ∧
      (decodePreferences s t e g).expertMode = (decodePreferences s' t e g).expertMode ∧
      (decodePreferences s t e g).gasPriority = (decodePreferences s' t e g).gasPriority)
  ∧ (decodePreferences (some "0.5") t e g).slippage = some "0.5"
  ∧ (decodePreferences (some "75") t e g).slippage = none
  ∧ (decodePreferences (some "abc") t e g).slippage = none := by
  refine ⟨?_, fun s' => ⟨rfl, rfl, rfl⟩, rfl, rfl, rfl⟩
  rw [slippage_some_iff s t e g v]
  constructor
  · rintro ⟨h1, h2, p, hp, hr⟩
    exact ⟨h1, h2, p, hp, (slippageInRange_iff p (parseFloatParts_den_pos v p hp)).mp hr⟩
  · rintro ⟨h1, h2, p, hp, hr⟩
    exact ⟨h1, h2, p, hp, (slippageInRange_iff p (parseFloatParts_den_pos v p hp)).mpr hr⟩

/-- The key count of a preference record is positive exactly when some field
is assigned. -/
theorem hasAnyPreferences_spec (p : ENSPreferences) :
    hasAnyPreferences p = true ↔
      (p.slippage.isSome = true ∨ p.theme.isSome = true ∨
       p.expertMode.isSome = true ∨ p.gasPriority.isSome = true) := by
  obtain ⟨a, b, c, d⟩ := p
  unfold hasAnyPreferences prefKeyCount
  cases a <;> cases b <;> cases c <;> cases d <;> simp

/-- C7: `hasAnyPreferences` is true exactly when at least one of the four
preference fields is present after validation; when all four records are
absent or all four fail validation it is false. -/
theorem c7_hasAnyPreferences (s t e g : Option String) :
    (hasAnyPreferences (decodePreferences s t e g) = true ↔
      ((decodePreferences s t e g).slippage.isSome = true ∨
       (decodePreferences s t e g).theme.isSome = true ∨
       (decodePreferences s t e g).expertMode.isSome = true ∨
       (decodePreferences s t e g).gasPriority.isSome = true))
  ∧ hasAnyPreferences (decodePreferences none none none none) = false
  ∧ hasAnyPreferences
      (decodePreferences (some "abc") (some "Dark") none (some "fast")) = false :=
  ⟨hasAnyPreferences_spec (decodePreferences s t e g), by decide, by decide⟩
